import Mathlib

/-!
# Verification of the intelligent skill scheduler

A shallow embedding of `src/intelligent_scheduler.py` (classes `SkillCache`,
`SkillExecutor`, `IntelligentSkillScheduler`) and proofs of the spec claims.

Modelling conventions:
* Time (`time.time()`) is an explicit `now : Nat` argument, in seconds.
* Python dicts used as maps are association lists with dict semantics
  (lookup finds the unique key; assignment overwrites in place).
* Skill parameters (`params : Dict`) are association lists of string keys to
  string values; `json.dumps(params, sort_keys=True)` is modelled by
  serializing the list sorted by a linear order on the pairs, which agrees
  with key-sorting on dict-representable (duplicate-free) inputs.
* `hashlib.md5(...).hexdigest()` is modelled as the identity on the
  serialized pre-image: the cache key is the string that is hashed.  Key
  equality then coincides with pre-image equality (md5 treated as
  collision-free).
* A registered invocable is a function from params to a `SkillBehavior`:
  it either completes with a payload after some duration, or raises an
  exception with a message.  `future.result(timeout=t)` raises
  `FutureTimeoutError` exactly when the duration exceeds the budget.
-/

namespace StockMCP

/-- Skill parameters: a Python dict of string keys and string values,
represented as an association list. -/
abbrev Params := List (String × String)

/-- Linear-order comparison on key/value pairs: by key, ties by value.
Used to model the canonical ordering of `json.dumps(..., sort_keys=True)`;
on dicts (unique keys) it coincides with sorting by key alone. -/
def pairLe (a b : String × String) : Prop :=
  a.1 < b.1 ∨ (a.1 = b.1 ∧ a.2 ≤ b.2)

instance : DecidableRel pairLe := fun a b => by
  unfold pairLe; infer_instance

instance : IsTotal (String × String) pairLe where
  total a b := by
    rcases lt_trichotomy a.1 b.1 with h | h | h
    · exact Or.inl (Or.inl h)
    · rcases le_total a.2 b.2 with h2 | h2
      · exact Or.inl (Or.inr ⟨h, h2⟩)
      · exact Or.inr (Or.inr ⟨h.symm, h2⟩)
    · exact Or.inr (Or.inl h)

instance : IsTrans (String × String) pairLe where
  trans a b c hab hbc := by
    rcases hab with hab | ⟨hab, hab2⟩
    · rcases hbc with hbc | ⟨hbc, _⟩
      · exact Or.inl (hab.trans hbc)
      · exact Or.inl (hbc ▸ hab)
    · rcases hbc with hbc | ⟨hbc, hbc2⟩
      · exact Or.inl (hab ▸ hbc)
      · exact Or.inr ⟨hab.trans hbc, hab2.trans hbc2⟩

instance : IsAntisymm (String × String) pairLe where
  antisymm a b hab hba := by
    rcases hab with hab | ⟨hab, hab2⟩
    · rcases hba with hba | ⟨hba, _⟩
      · exact absurd (hab.trans hba) (lt_irrefl _)
      · exact absurd hab (hba ▸ lt_irrefl _)
    · rcases hba with hba | ⟨_, hba2⟩
      · exact absurd hba (hab ▸ lt_irrefl _)
      · exact Prod.ext hab (le_antisymm hab2 hba2)

/-- `json.dumps(params, sort_keys=True)`: serialize the pairs in canonical
(sorted) order with JSON punctuation (`\x7b` and `\x7d` are `{` and `}`). -/
def jsonDumpsSorted (params : Params) : String :=
  "\x7b" ++
    String.intercalate ", "
      ((List.insertionSort pairLe params).map
        (fun kv => "\"" ++ kv.1 ++ "\": \"" ++ kv.2 ++ "\"")) ++
  "\x7d"

/-- `SkillCache._generate_key`: `f"{skill_name}:{json.dumps(params, sort_keys=True)}"`
(the md5 hash of this string is modelled as the string itself). -/
def generate_key (skill_name : String) (params : Params) : String :=
  skill_name ++ ":" ++ jsonDumpsSorted params

/-- `SkillCache.TTL_CONFIG`. -/
def TTL_CONFIG : List (String × Nat) :=
  [("stock_price", 60), ("stock_info", 3600), ("web_page", 300),
   ("news", 600), ("search_result", 1800), ("analysis_report", 86400),
   ("technical_indicators", 300)]

/-- `self.TTL_CONFIG.get(data_type, 300)`. -/
def ttlFor (data_type : String) : Nat :=
  (TTL_CONFIG.lookup data_type).getD 300

/-- The cache store `SkillCache._cache`: key ↦ (data, timestamp). -/
abbrev Cache (α : Type) := List (String × α × Nat)

/-- Python dict assignment `d[k] = v`: overwrite in place, else append. -/
def dictInsert {α : Type} (k : String) (v : α × Nat) :
    Cache α → Cache α
  | [] => [(k, v)]
  | e :: rest => if e.1 = k then (k, v) :: rest else e :: dictInsert k v rest

/-- Python `del d[k]`: remove the (unique) entry with key `k`. -/
def dictErase {α : Type} (k : String) (c : Cache α) : Cache α :=
  c.eraseP (fun e => e.1 == k)

/-- `SkillCache.get`: look up by fingerprint; a fresh entry is returned, an
entry at or past its data-type TTL is deleted and `none` returned. Returns
the result and the cache afterwards. -/
def cache_get {α : Type} (c : Cache α) (now : Nat) (skill_name : String)
    (params : Params) (data_type : String) : Option α × Cache α :=
  let key := generate_key skill_name params
  match c.lookup key with
  | none => (none, c)
  | some (data, timestamp) =>
    if now - timestamp < ttlFor data_type then (some data, c)
    else (none, dictErase key c)

/-- `SkillCache.set`: store `(data, now)` under the fingerprint. -/
def cache_set {α : Type} (c : Cache α) (now : Nat) (skill_name : String)
    (params : Params) (data : α) : Cache α :=
  dictInsert (generate_key skill_name params) (data, now) c

/-- `SkillCache.clear_expired`: delete every entry older than 86400 s. -/
def clear_expired {α : Type} (c : Cache α) (now : Nat) : Cache α :=
  c.filter (fun e => !(decide (now - e.2.2 > 86400)))

/-- `SkillExecutor.stats`. -/
structure Stats where
  total_calls : Nat
  cache_hits : Nat
  fallback_triggers : Nat
  errors : Nat
deriving DecidableEq, Repr

/-- Behaviour of a registered invocable on given params: it either completes
with a payload after `duration` seconds of wall time, or raises an exception
whose `str(e)` is `msg`. -/
inductive SkillBehavior (α : Type) where
  | completes (data : α) (duration : Nat)
  | raises (msg : String)
deriving DecidableEq

/-- The dict returned by `SkillExecutor.execute` / the scheduler; absent
Python keys are `none` / `false` / `0`.  The float `time` field is not
modelled (no claim mentions it). -/
structure ExecutionResult (α : Type) where
  success : Bool
  data : Option α
  error : Option String
  from_cache : Bool
  cost : Nat
deriving DecidableEq

/-- Mutable state shared by `SkillExecutor`: its cache and its stats. -/
structure ExecState (α : Type) where
  cache : Cache α
  stats : Stats
deriving DecidableEq

/-- `SkillExecutor.TIMEOUT_CONFIG`. -/
def TIMEOUT_CONFIG : List (String × Nat) :=
  [("local", 2), ("file", 3), ("web_fetch", 10), ("web_search", 15),
   ("browser", 30), ("ai", 60)]

/-- `self.TIMEOUT_CONFIG.get(data_type, 10)`. -/
def timeoutFor (data_type : String) : Nat :=
  (TIMEOUT_CONFIG.lookup data_type).getD 10

/-- `timeout = timeout or self.TIMEOUT_CONFIG.get(data_type, 10)`: a missing
timeout, and also an explicit `0` (falsy in Python), fall back to the table. -/
def effectiveTimeout (data_type : String) (timeout : Option Nat) : Nat :=
  match timeout with
  | some t => if t = 0 then timeoutFor data_type else t
  | none => timeoutFor data_type

/-- `SkillExecutor.execute`: consult the cache; on a miss run the invocable
under the effective deadline, caching and counting a success, counting an
error on timeout or exception. -/
def execute {α : Type} (st : ExecState α) (now : Nat) (skill_name : String)
    (func : Params → SkillBehavior α) (params : Params)
    (data_type : String) (timeout : Option Nat) :
    ExecutionResult α × ExecState α :=
  let looked := cache_get st.cache now skill_name params data_type
  match looked.1 with
  | some cached_data =>
    (⟨true, some cached_data, none, true, 0⟩,
     ⟨looked.2, { st.stats with cache_hits := st.stats.cache_hits + 1 }⟩)
  | none =>
    let eff := effectiveTimeout data_type timeout
    match func params with
    | .completes data duration =>
      if duration > eff then
        (⟨false, none, some ("Timeout after " ++ toString eff ++ "s"), false, 1⟩,
         ⟨looked.2, { st.stats with errors := st.stats.errors + 1 }⟩)
      else
        (⟨true, some data, none, false, 1⟩,
         ⟨cache_set looked.2 now skill_name params data,
          { st.stats with total_calls := st.stats.total_calls + 1 }⟩)
    | .raises msg =>
      (⟨false, none, some msg, false, 1⟩,
       ⟨looked.2, { st.stats with errors := st.stats.errors + 1 }⟩)

/-- A registry entry (`IntelligentSkillScheduler.register_skill`). -/
structure SkillDef (α : Type) where
  func : Params → SkillBehavior α
  level : Nat
  data_type : String

/-- `IntelligentSkillScheduler.skill_registry`. -/
structure Scheduler (α : Type) where
  registry : List (String × SkillDef α)

/-- `IntelligentSkillScheduler._execute_skill`: unregistered names fail at
once without touching the executor; otherwise delegate to `execute` with the
registered data type (and no explicit timeout). -/
def execute_skill {α : Type} (sched : Scheduler α) (st : ExecState α)
    (now : Nat) (skill_name : String) (params : Params) :
    ExecutionResult α × ExecState α :=
  match sched.registry.lookup skill_name with
  | none =>
    (⟨false, none, some ("Skill " ++ skill_name ++ " not registered"),
      false, 0⟩, st)
  | some skill => execute st now skill_name skill.func params skill.data_type none

/-- Increment `self.executor.stats["fallback_triggers"]`. -/
def bumpFT {α : Type} (st : ExecState α) : ExecState α :=
  ⟨st.cache,
   { st.stats with fallback_triggers := st.stats.fallback_triggers + 1 }⟩

/-- Python `repr` of a string without quote characters (`\x27` is `'`). -/
def pyStrRepr (s : String) : String := "\x27" ++ s ++ "\x27"

/-- Python `str` of a list of strings, e.g. `["B", "C"]` prints as
`['B', 'C']`. -/
def pyElems : List String → String
  | [] => ""
  | [s] => pyStrRepr s
  | s :: rest => pyStrRepr s ++ ", " ++ pyElems rest

/-- Python `f"{fallback_chain}"`. -/
def pyListRepr (l : List String) : String := "[" ++ pyElems l ++ "]"

/-- `f"All skills failed: {primary_skill}, {fallback_chain}"`. -/
def allFailedMsg (primary_skill : String) (fallback_chain : List String) :
    String :=
  "All skills failed: " ++ primary_skill ++ ", " ++ pyListRepr fallback_chain

/-- The `for skill_name in fallback_chain` loop of `execute_with_fallback`:
bump `fallback_triggers` before each attempt, stop at the first success,
report exhaustion naming the primary and the full chain. -/
def fallbackLoop {α : Type} (sched : Scheduler α) (now : Nat)
    (params : Params) (primary_skill : String) (fullChain : List String) :
    ExecState α → List String → ExecutionResult α × ExecState α
  | st, [] =>
    (⟨false, none, some (allFailedMsg primary_skill fullChain), false, 0⟩, st)
  | st, skill_name :: rest =>
    let attempt := execute_skill sched (bumpFT st) now skill_name params
    if attempt.1.success then attempt
    else fallbackLoop sched now params primary_skill fullChain attempt.2 rest

/-- `IntelligentSkillScheduler.execute_with_fallback`. -/
def execute_with_fallback {α : Type} (sched : Scheduler α) (st : ExecState α)
    (now : Nat) (primary_skill : String) (fallback_chain : List String)
    (params : Params) : ExecutionResult α × ExecState α :=
  let primaryRun := execute_skill sched st now primary_skill params
  if primaryRun.1.success then primaryRun
  else fallbackLoop sched now params primary_skill fallback_chain
    primaryRun.2 fallback_chain

/-! ## Helper lemmas -/

theorem ttlFor_pos (dt : String) : 0 < ttlFor dt := by
  unfold ttlFor TTL_CONFIG
  simp only [List.lookup]
  repeat' split
  all_goals decide

theorem lookup_dictInsert {α : Type} (k : String) (v : α × Nat) :
    ∀ c : Cache α, (dictInsert k v c).lookup k = some v := by
  intro c
  induction c with
  | nil => simp [dictInsert, List.lookup]
  | cons e rest ih =>
    by_cases h : e.1 = k
    · simp [dictInsert, h, List.lookup]
    · simp only [dictInsert, if_neg h, List.lookup]
      have : (k == e.1) = false := by
        simp [beq_eq_false_iff_ne]
        exact fun hk => h hk.symm
      simp [this, ih]

/-- `cache_get` right after a matching `cache_set` finds a fresh entry. -/
theorem cache_get_after_set {α : Type} (c : Cache α) (now : Nat)
    (name : String) (params : Params) (dt : String) (payload : α) :
    cache_get (cache_set c now name params payload) now name params dt =
      (some payload, cache_set c now name params payload) := by
  unfold cache_get cache_set
  dsimp only
  rw [lookup_dictInsert]
  simp [Nat.sub_self, ttlFor_pos dt]

/-! ## Claims C3, C4, C7 -/

/-- C3: for every `(name, params, dataType)` and every payload, a cache `get`
performed immediately after a matching `set` (same time, no intervening
mutation) returns the identical payload rather than absent. -/
theorem cache_round_trip {α : Type} (c : Cache α) (now : Nat) (name : String)
    (params : Params) (dt : String) (payload : α) :
    (cache_get (cache_set c now name params payload) now name params dt).1 =
      some payload := by
  rw [cache_get_after_set]

/-- C4: expiry is two-tier.  A `get` at age 61 s on a `stock_price` entry
(TTL 60 s) returns absent and deletes the entry, while a `sweep` at the same
age leaves the entry physically present; in general `sweep` keeps exactly
the entries aged at most the fixed 24-hour ceiling, independent of the
per-data-type TTL. -/
theorem two_tier_expiry (α : Type) :
    (∀ (name : String) (params : Params) (payload : α),
      (cache_get (cache_set ([] : Cache α) 0 name params payload)
        61 name params "stock_price").1 = none ∧
      (cache_get (cache_set ([] : Cache α) 0 name params payload)
        61 name params "stock_price").2 = [] ∧
      clear_expired (cache_set ([] : Cache α) 0 name params payload) 61 =
        cache_set ([] : Cache α) 0 name params payload) ∧
    (∀ (c : Cache α) (now : Nat) (e : String × α × Nat),
      e ∈ clear_expired c now ↔ e ∈ c ∧ ¬ 86400 < now - e.2.2) := by
  constructor
  · intro name params payload
    have hset : cache_set ([] : Cache α) 0 name params payload =
        [(generate_key name params, payload, 0)] := rfl
    rw [hset]
    refine ⟨?_, ?_, ?_⟩
    · simp [cache_get, List.lookup, ttlFor]
    · simp [cache_get, List.lookup, ttlFor, dictErase, List.eraseP]
    · simp [clear_expired]
  · intro c now e
    simp [clear_expired, List.mem_filter]

/-- C7: the cache fingerprint is deterministic and independent of parameter
insertion order: semantically equal parameter mappings (same key-value
pairs in any order) yield the same key string. -/
theorem fingerprint_deterministic (name : String) (p1 p2 : Params)
    (h : p1.Perm p2) : generate_key name p1 = generate_key name p2 := by
  unfold generate_key jsonDumpsSorted
  have hsort : List.insertionSort pairLe p1 = List.insertionSort pairLe p2 :=
    List.eq_of_perm_of_sorted
      (((List.perm_insertionSort pairLe p1).trans h).trans
        (List.perm_insertionSort pairLe p2).symm)
      (List.sorted_insertionSort pairLe p1)
      (List.sorted_insertionSort pairLe p2)
  rw [hsort]

/-- C7 witness: `fingerprint("priceLookup", ...)` with the two insertion
orders of the same two-pair mapping agrees. -/
theorem fingerprint_deterministic_witness :
    generate_key "priceLookup" [("symbol", "600519"), ("a", "1")] =
      generate_key "priceLookup" [("a", "1"), ("symbol", "600519")] :=
  fingerprint_deterministic "priceLookup" _ _
    (List.Perm.swap ("a", "1") ("symbol", "600519") [])

/-! ## Claim C5: every failure is a structured result -/

theorem execute_shape {α : Type} (st : ExecState α) (now : Nat)
    (name : String) (func : Params → SkillBehavior α) (params : Params)
    (dt : String) (t : Option Nat) :
    (execute st now name func params dt t).1.success = true ∨
    ∃ msg, (execute st now name func params dt t).1.error = some msg := by
  unfold execute
  dsimp only
  rcases h1 : (cache_get st.cache now name params dt).1 with _ | d
  · rcases h2 : func params with ⟨d, dur⟩ | msg
    · by_cases h3 : dur > effectiveTimeout dt t
      · simp [h1, h2, h3]
      · simp [h1, h2, h3]
    · simp [h1, h2]
  · simp [h1]

theorem execute_skill_shape {α : Type} (sched : Scheduler α)
    (st : ExecState α) (now : Nat) (name : String) (params : Params) :
    (execute_skill sched st now name params).1.success = true ∨
    ∃ msg, (execute_skill sched st now name params).1.error = some msg := by
  unfold execute_skill
  rcases h : sched.registry.lookup name with _ | skill
  · simp [h]
  · simp only [h]
    exact execute_shape st now name skill.func params skill.data_type none

theorem fallbackLoop_shape {α : Type} (sched : Scheduler α) (now : Nat)
    (params : Params) (primary : String) (full : List String) :
    ∀ (names : List String) (st : ExecState α),
    (fallbackLoop sched now params primary full st names).1.success = true ∨
    ∃ msg,
      (fallbackLoop sched now params primary full st names).1.error =
        some msg := by
  intro names
  induction names with
  | nil => intro st; exact Or.inr ⟨_, rfl⟩
  | cons n rest ih =>
    intro st
    unfold fallbackLoop
    dsimp only
    by_cases h : (execute_skill sched (bumpFT st) now n params).1.success = true
    · rw [if_pos h]
      exact Or.inl h
    · rw [if_neg h]
      exact ih _

/-- C5: for every call to `execute`, `_execute_skill` or
`execute_with_fallback`, with any inputs, the outcome is a structured result:
either it succeeds, or it carries an error description — no failure kind
(not registered, deadline exceeded, invocable raising, all chain entries
failed) escapes as an exception to the caller (the embedding of every
`try/except`-guarded path is a total function into `ExecutionResult`). -/
theorem structured_failures (α : Type) :
    (∀ (st : ExecState α) (now : Nat) (name : String)
        (func : Params → SkillBehavior α) (params : Params)
        (dt : String) (t : Option Nat),
      (execute st now name func params dt t).1.success = true ∨
      ∃ msg, (execute st now name func params dt t).1.error = some msg) ∧
    (∀ (sched : Scheduler α) (st : ExecState α) (now : Nat)
        (name : String) (params : Params),
      (execute_skill sched st now name params).1.success = true ∨
      ∃ msg, (execute_skill sched st now name params).1.error = some msg) ∧
    (∀ (sched : Scheduler α) (st : ExecState α) (now : Nat)
        (primary : String) (chain : List String) (params : Params),
      (execute_with_fallback sched st now primary chain params).1.success =
        true ∨
      ∃ msg,
        (execute_with_fallback sched st now primary chain params).1.error =
          some msg) := by
  refine ⟨execute_shape, execute_skill_shape, ?_⟩
  intro sched st now primary chain params
  unfold execute_with_fallback
  dsimp only
  by_cases h : (execute_skill sched st now primary params).1.success = true
  · rw [if_pos h]
    exact Or.inl h
  · rw [if_neg h]
    exact fallbackLoop_shape sched now params primary chain chain _

/-! ## Fallback-loop machinery for C1 and C8 -/

/-- The executor state after the fallback loop has attempted (and failed)
each name in `names` in order: each attempt bumps `fallback_triggers` and
then runs `_execute_skill`. -/
def loopState {α : Type} (sched : Scheduler α) (now : Nat) (params : Params) :
    ExecState α → List String → ExecState α
  | st, [] => st
  | st, n :: rest =>
    loopState sched now params
      (execute_skill sched (bumpFT st) now n params).2 rest

/-- Every attempt along the loop fails, threading the evolving state. -/
def allFail {α : Type} (sched : Scheduler α) (now : Nat) (params : Params) :
    ExecState α → List String → Prop
  | _, [] => True
  | st, n :: rest =>
    (execute_skill sched (bumpFT st) now n params).1.success = false ∧
    allFail sched now params
      (execute_skill sched (bumpFT st) now n params).2 rest

theorem execute_ft {α : Type} (st : ExecState α) (now : Nat) (name : String)
    (func : Params → SkillBehavior α) (params : Params) (dt : String)
    (t : Option Nat) :
    (execute st now name func params dt t).2.stats.fallback_triggers =
      st.stats.fallback_triggers := by
  unfold execute
  dsimp only
  rcases h1 : (cache_get st.cache now name params dt).1 with _ | d
  · rcases h2 : func params with ⟨d, dur⟩ | msg
    · by_cases h3 : dur > effectiveTimeout dt t <;> simp [h1, h2, h3]
    · simp [h1, h2]
  · simp [h1]

theorem execute_skill_ft {α : Type} (sched : Scheduler α) (st : ExecState α)
    (now : Nat) (name : String) (params : Params) :
    (execute_skill sched st now name params).2.stats.fallback_triggers =
      st.stats.fallback_triggers := by
  unfold execute_skill
  rcases h : sched.registry.lookup name with _ | skill
  · simp [h]
  · simp only [h]
    exact execute_ft st now name skill.func params skill.data_type none

theorem loopState_ft {α : Type} (sched : Scheduler α) (now : Nat)
    (params : Params) :
    ∀ (names : List String) (st : ExecState α),
    (loopState sched now params st names).stats.fallback_triggers =
      st.stats.fallback_triggers + names.length := by
  intro names
  induction names with
  | nil => intro st; simp [loopState]
  | cons n rest ih =>
    intro st
    unfold loopState
    rw [ih, execute_skill_ft]
    simp [bumpFT]
    omega

/-- When every attempt fails, the loop returns the exhaustion report and the
fully threaded state. -/
theorem fallbackLoop_allFail {α : Type} (sched : Scheduler α) (now : Nat)
    (params : Params) (primary : String) (full : List String) :
    ∀ (names : List String) (st : ExecState α),
    allFail sched now params st names →
    fallbackLoop sched now params primary full st names =
      (⟨false, none, some (allFailedMsg primary full), false, 0⟩,
       loopState sched now params st names) := by
  intro names
  induction names with
  | nil => intro st _; rfl
  | cons n rest ih =>
    intro st h
    unfold allFail at h
    obtain ⟨h1, h2⟩ := h
    unfold fallbackLoop
    dsimp only
    rw [if_neg (by simp [h1])]
    rw [ih _ h2]
    rfl

/-- Once the failing names `pre` are exhausted, the loop returns exactly the
first successful attempt, never touching the names after it. -/
theorem fallbackLoop_firstSuccess {α : Type} (sched : Scheduler α)
    (now : Nat) (params : Params) (primary : String) (full : List String) :
    ∀ (pre : List String) (st : ExecState α) (s : String)
      (post : List String),
    allFail sched now params st pre →
    (execute_skill sched (bumpFT (loopState sched now params st pre))
      now s params).1.success = true →
    fallbackLoop sched now params primary full st (pre ++ s :: post) =
      execute_skill sched (bumpFT (loopState sched now params st pre))
        now s params := by
  intro pre
  induction pre with
  | nil =>
    intro st s post _ hs
    unfold loopState at hs
    unfold fallbackLoop
    simp only [List.nil_append]
    rw [if_pos hs]
    rfl
  | cons n rest ih =>
    intro st s post h hs
    unfold allFail at h
    obtain ⟨h1, h2⟩ := h
    unfold loopState at hs
    unfold fallbackLoop
    simp only [List.cons_append]
    rw [if_neg (by simp [h1])]
    exact ih _ s post h2 hs

/-! ## Claim C1 -/

/-- C1: if the primary succeeds, `execute_with_fallback` returns its result
immediately with `fallback_triggers` unchanged and no fallback executed;
otherwise the fallbacks are attempted in order, `fallback_triggers` grows by
one per attempted entry, iteration stops at the first success (whose result
is returned without touching later entries), and the final counter reads
initial + (failed fallbacks before the success) + 1. -/
theorem fallback_contract {α : Type} (sched : Scheduler α) (st : ExecState α)
    (now : Nat) (primary : String) (chain : List String) (params : Params) :
    ((execute_skill sched st now primary params).1.success = true →
      execute_with_fallback sched st now primary chain params =
        execute_skill sched st now primary params ∧
      (execute_with_fallback sched st now primary chain
        params).2.stats.fallback_triggers = st.stats.fallback_triggers) ∧
    (∀ (pre : List String) (s : String) (post : List String),
      chain = pre ++ s :: post →
      (execute_skill sched st now primary params).1.success = false →
      allFail sched now params
        (execute_skill sched st now primary params).2 pre →
      (execute_skill sched
        (bumpFT (loopState sched now params
          (execute_skill sched st now primary params).2 pre))
        now s params).1.success = true →
      execute_with_fallback sched st now primary chain params =
        execute_skill sched
          (bumpFT (loopState sched now params
            (execute_skill sched st now primary params).2 pre))
          now s params ∧
      (execute_with_fallback sched st now primary chain
        params).2.stats.fallback_triggers =
        st.stats.fallback_triggers + (pre.length + 1)) := by
  constructor
  · intro hp
    have he : execute_with_fallback sched st now primary chain params =
        execute_skill sched st now primary params := by
      unfold execute_with_fallback
      dsimp only
      rw [if_pos hp]
    refine ⟨he, ?_⟩
    rw [he, execute_skill_ft]
  · intro pre s post hchain hp hfail hs
    have he : execute_with_fallback sched st now primary chain params =
        execute_skill sched
          (bumpFT (loopState sched now params
            (execute_skill sched st now primary params).2 pre))
          now s params := by
      unfold execute_with_fallback
      dsimp only
      rw [if_neg (by simp [hp]), hchain]
      exact fallbackLoop_firstSuccess sched now params primary
        (pre ++ s :: post) pre _ s post hfail hs
    refine ⟨he, ?_⟩
    rw [he, execute_skill_ft]
    show (bumpFT _).stats.fallback_triggers = _
    unfold bumpFT
    dsimp only
    rw [loopState_ft, execute_skill_ft]
    omega

/-- C1 witness: with `B` registered and succeeding while `A` is absent,
`runWithFallback("A", ["B"], {})` returns B's attempt and bumps
`fallback_triggers` to exactly 1. -/
theorem fallback_contract_witness :
    (execute_with_fallback
        (⟨[("B", ⟨fun _ => .completes (7 : Nat) 0, 1, "default"⟩)]⟩ :
          Scheduler Nat)
        ⟨[], ⟨0, 0, 0, 0⟩⟩ 0 "A" ["B"] []).1.success = true ∧
    (execute_with_fallback
        (⟨[("B", ⟨fun _ => .completes (7 : Nat) 0, 1, "default"⟩)]⟩ :
          Scheduler Nat)
        ⟨[], ⟨0, 0, 0, 0⟩⟩ 0 "A" ["B"] []).2.stats.fallback_triggers = 1 := by
  have h := (fallback_contract
    (⟨[("B", ⟨fun _ => .completes (7 : Nat) 0, 1, "default"⟩)]⟩ :
      Scheduler Nat)
    ⟨[], ⟨0, 0, 0, 0⟩⟩ 0 "A" ["B"] []).2 [] "B" [] rfl (by decide)
    trivial (by decide)
  constructor
  · rw [h.1]; decide
  · exact h.2

/-! ## Claim C8 -/

theorem pyElems_decomp (name : String) :
    ∀ l : List String, name ∈ l →
    ∃ pre post, pyElems l = pre ++ name ++ post := by
  intro l
  induction l with
  | nil => intro h; exact absurd h (List.not_mem_nil name)
  | cons s rest ih =>
    intro h
    rcases List.mem_cons.mp h with h | h
    · subst h
      cases rest with
      | nil =>
        exact ⟨"\x27", "\x27", rfl⟩
      | cons t ts =>
        refine ⟨"\x27", "\x27" ++ ", " ++ pyElems (t :: ts), ?_⟩
        show pyStrRepr name ++ ", " ++ pyElems (t :: ts) = _
        unfold pyStrRepr
        simp only [String.append_assoc]
    · obtain ⟨pre, post, hp⟩ := ih h
      cases rest with
      | nil => exact absurd h (List.not_mem_nil name)
      | cons t ts =>
        refine ⟨pyStrRepr s ++ ", " ++ pre, post, ?_⟩
        show pyStrRepr s ++ ", " ++ pyElems (t :: ts) = _
        rw [hp]
        simp only [String.append_assoc]

theorem allFailedMsg_names (primary : String) (chain : List String) :
    ∀ name ∈ primary :: chain,
    ∃ pre post, allFailedMsg primary chain = pre ++ name ++ post := by
  intro name h
  rcases List.mem_cons.mp h with h | h
  · subst h
    refine ⟨"All skills failed: ", ", " ++ pyListRepr chain, ?_⟩
    unfold allFailedMsg
    simp only [String.append_assoc]
  · obtain ⟨pre, post, hp⟩ := pyElems_decomp name chain h
    refine ⟨"All skills failed: " ++ primary ++ ", " ++ "[" ++ pre,
            post ++ "]", ?_⟩
    unfold allFailedMsg pyListRepr
    rw [hp]
    simp only [String.append_assoc]

/-- C8: when the primary and every fallback entry fail,
`execute_with_fallback` returns success=false with the error text
`"All skills failed: <primary>, <fallback list>"`, and that text contains
the name of every attempted skill. -/
theorem exhaustion_reporting {α : Type} (sched : Scheduler α)
    (st : ExecState α) (now : Nat) (primary : String) (chain : List String)
    (params : Params)
    (hp : (execute_skill sched st now primary params).1.success = false)
    (hall : allFail sched now params
      (execute_skill sched st now primary params).2 chain) :
    (execute_with_fallback sched st now primary chain params).1 =
      ⟨false, none, some (allFailedMsg primary chain), false, 0⟩ ∧
    ∀ name ∈ primary :: chain,
      ∃ pre post, allFailedMsg primary chain = pre ++ name ++ post := by
  refine ⟨?_, allFailedMsg_names primary chain⟩
  unfold execute_with_fallback
  dsimp only
  rw [if_neg (by simp [hp])]
  rw [fallbackLoop_allFail sched now params primary chain chain _ hall]

/-- C8 witness: with an empty registry, `runWithFallback("A", ["B"], {})`
has both entries fail and reports `All skills failed: A, ['B']`. -/
theorem exhaustion_reporting_witness :
    (execute_with_fallback (⟨[]⟩ : Scheduler Nat) ⟨[], ⟨0, 0, 0, 0⟩⟩
        0 "A" ["B"] []).1 =
      ⟨false, none, some (allFailedMsg "A" ["B"]), false, 0⟩ :=
  (exhaustion_reporting (⟨[]⟩ : Scheduler Nat) ⟨[], ⟨0, 0, 0, 0⟩⟩
    0 "A" ["B"] [] (by decide)
    (by unfold allFail; exact ⟨by decide, trivial⟩)).1

/-! ## Claim C2 -/

/-- C2: from fresh stats and an empty cache, with skill `A` of dataType
"local" always exceeding its 2 s deadline and skill `B` always succeeding
instantly, one `runWithFallback("A", ["B"], {})` succeeds and leaves
`total_calls = 1`, `cache_hits = 0`, `fallback_triggers = 1`, `errors = 1`. -/
theorem stats_accounting (dA : Nat) (hA : 2 < dA) (vA vB : Nat) :
    (execute_with_fallback
      (⟨[("A", ⟨fun _ => .completes vA dA, 1, "local"⟩),
         ("B", ⟨fun _ => .completes vB 0, 1, "default"⟩)]⟩ : Scheduler Nat)
      ⟨[], ⟨0, 0, 0, 0⟩⟩ 0 "A" ["B"] []).1.success = true ∧
    (execute_with_fallback
      (⟨[("A", ⟨fun _ => .completes vA dA, 1, "local"⟩),
         ("B", ⟨fun _ => .completes vB 0, 1, "default"⟩)]⟩ : Scheduler Nat)
      ⟨[], ⟨0, 0, 0, 0⟩⟩ 0 "A" ["B"] []).2.stats = ⟨1, 0, 1, 1⟩ := by
  constructor <;>
    simp [execute_with_fallback, execute_skill, execute, fallbackLoop,
      cache_get, cache_set, bumpFT, List.lookup, hA, effectiveTimeout,
      timeoutFor, TIMEOUT_CONFIG]

/-- C2 witness: the scenario at the concrete blocking duration 5 s. -/
theorem stats_accounting_witness :
    (execute_with_fallback
      (⟨[("A", ⟨fun _ => .completes 0 5, 1, "local"⟩),
         ("B", ⟨fun _ => .completes 7 0, 1, "default"⟩)]⟩ : Scheduler Nat)
      ⟨[], ⟨0, 0, 0, 0⟩⟩ 0 "A" ["B"] []).1.success = true ∧
    (execute_with_fallback
      (⟨[("A", ⟨fun _ => .completes 0 5, 1, "local"⟩),
         ("B", ⟨fun _ => .completes 7 0, 1, "default"⟩)]⟩ : Scheduler Nat)
      ⟨[], ⟨0, 0, 0, 0⟩⟩ 0 "A" ["B"] []).2.stats = ⟨1, 0, 1, 1⟩ :=
  stats_accounting 5 (by decide) 0 7

/-! ## Claim C6 (corrected: Python `or` treats an explicit 0 as absent) -/

/-- C6 counterexample: an explicitly supplied timeout of 0 is NOT used as
the effective deadline.  With dataType "local" the table entry 2 applies
instead, and a 5 s invocable reports "Timeout after 2s", not
"Timeout after 0s". -/
theorem timeout_zero_ignored :
    effectiveTimeout "local" (some 0) = 2 ∧
    (execute (⟨[], ⟨0, 0, 0, 0⟩⟩ : ExecState Nat) 0 "s"
      (fun _ => .completes 0 5) [] "local" (some 0)).1.error =
      some "Timeout after 2s" ∧
    (execute (⟨[], ⟨0, 0, 0, 0⟩⟩ : ExecState Nat) 0 "s"
      (fun _ => .completes 0 5) [] "local" (some 0)).1.error ≠
      some "Timeout after 0s" := by
  decide

/-- C6 (amended): on a cache miss the effective deadline is the explicitly
supplied timeout whenever one is given and nonzero; a supplied 0 (falsy in
Python) and a missing timeout both fall back to the per-data-type table,
else 10 s.  When the deadline is exceeded the result is success=false with
error "Timeout after <n>s" where n is the effective deadline; a "local"
skill blocking 5 s reports a message containing "2". -/
theorem timeout_resolution (α : Type) :
    (∀ (dt : String) (t : Nat), t ≠ 0 →
      effectiveTimeout dt (some t) = t) ∧
    (∀ dt : String, effectiveTimeout dt none = timeoutFor dt ∧
      effectiveTimeout dt (some 0) = timeoutFor dt) ∧
    (timeoutFor "local" = 2 ∧
      ∀ dt : String,
        dt ∉ ["local", "file", "web_fetch", "web_search", "browser", "ai"] →
        timeoutFor dt = 10) ∧
    (∀ (st : ExecState α) (now : Nat) (name : String)
        (func : Params → SkillBehavior α) (params : Params) (dt : String)
        (t : Option Nat) (d : α) (dur : Nat),
      (cache_get st.cache now name params dt).1 = none →
      func params = .completes d dur →
      effectiveTimeout dt t < dur →
      (execute st now name func params dt t).1 =
        ⟨false, none,
         some ("Timeout after " ++ toString (effectiveTimeout dt t) ++ "s"),
         false, 1⟩) := by
  refine ⟨?_, ?_, ⟨rfl, ?_⟩, ?_⟩
  · intro dt t ht
    simp [effectiveTimeout, ht]
  · intro dt
    exact ⟨rfl, rfl⟩
  · intro dt h
    unfold timeoutFor TIMEOUT_CONFIG
    simp only [List.lookup]
    repeat' split
    all_goals simp_all
  · intro st now name func params dt t d dur hm hf hd
    unfold execute
    dsimp only
    rw [hm, hf]
    dsimp only
    rw [if_pos hd]

/-- C6 witness: a nonzero explicit timeout is used as given, and a "local"
skill blocking 5 s yields exactly "Timeout after 2s". -/
theorem timeout_resolution_witness :
    effectiveTimeout "web_page" (some 7) = 7 ∧
    (execute (⟨[], ⟨0, 0, 0, 0⟩⟩ : ExecState Nat) 0 "s"
      (fun _ => .completes 0 5) [] "local" none).1 =
      ⟨false, none, some "Timeout after 2s", false, 1⟩ :=
  ⟨(timeout_resolution Nat).1 "web_page" 7 (by decide),
   ((timeout_resolution Nat).2.2.2 ⟨[], ⟨0, 0, 0, 0⟩⟩ 0 "s"
     (fun _ => .completes 0 5) [] "local" none 0 5 rfl rfl
     (by decide)).trans (by decide)⟩

/-! ## Claim C9 (corrected: the initial lookup may delete an expired entry) -/

/-- C9 counterexample: a failing call is not always cache-neutral — when an
expired entry sits under the fingerprint, the initial lookup of the failing
call deletes it, so the cache differs afterwards. -/
theorem failed_call_cache_changed :
    ((execute
      (⟨[(generate_key "s" [], ((0 : Nat), 0))], ⟨0, 0, 0, 0⟩⟩ :
        ExecState Nat)
      400 "s" (fun _ => .raises "boom") [] "default" none).1.success
        = false) ∧
    (execute
      (⟨[(generate_key "s" [], ((0 : Nat), 0))], ⟨0, 0, 0, 0⟩⟩ :
        ExecState Nat)
      400 "s" (fun _ => .raises "boom") [] "default" none).2.cache ≠
      [(generate_key "s" [], ((0 : Nat), 0))] := by
  decide

theorem cache_get_not_found {α : Type} (c : Cache α) (now : Nat)
    (name : String) (params : Params) (dt : String)
    (h : c.lookup (generate_key name params) = none) :
    cache_get c now name params dt = (none, c) := by
  unfold cache_get
  dsimp only
  rw [h]

/-- C9 (amended): a failing `execute` never stores a result — the cache
after a failing call is exactly the cache left by the initial lookup, which
at most lazily deletes an expired entry under that fingerprint; in
particular, when nothing was stored under the fingerprint the cache is
exactly unchanged. -/
theorem failed_not_cached {α : Type} (st : ExecState α) (now : Nat)
    (name : String) (func : Params → SkillBehavior α) (params : Params)
    (dt : String) (t : Option Nat)
    (h : (execute st now name func params dt t).1.success = false) :
    (execute st now name func params dt t).2.cache =
      (cache_get st.cache now name params dt).2 ∧
    (st.cache.lookup (generate_key name params) = none →
      (execute st now name func params dt t).2.cache = st.cache) := by
  have hmain : (execute st now name func params dt t).2.cache =
      (cache_get st.cache now name params dt).2 := by
    unfold execute at h ⊢
    dsimp only at h ⊢
    rcases hc : (cache_get st.cache now name params dt).1 with _ | d
    · rcases hf : func params with ⟨d, dur⟩ | msg
      · by_cases h3 : dur > effectiveTimeout dt t
        · simp [hc, hf, h3]
        · rw [hc, hf] at h
          dsimp only at h
          rw [if_neg h3] at h
          exact absurd h (by simp)
      · simp [hc, hf]
    · rw [hc] at h
  refine ⟨hmain, fun hl => ?_⟩
  rw [hmain, cache_get_not_found st.cache now name params dt hl]

/-- C9 witness: a raising invocable with an empty cache leaves the cache
empty. -/
theorem failed_not_cached_witness :
    (execute (⟨[], ⟨0, 0, 0, 0⟩⟩ : ExecState Nat) 0 "s"
      (fun _ => .raises "boom") [] "default" none).2.cache = [] :=
  (failed_not_cached (⟨[], ⟨0, 0, 0, 0⟩⟩ : ExecState Nat) 0 "s"
    (fun _ => .raises "boom") [] "default" none (by decide)).2 rfl

/-! ## Claim C10 -/

/-- C10: a chain entry absent from the registry fails without reaching the
Executor: the attempt returns the not-registered failure with the executor
state (all counters and the cache) exactly unchanged and independent of the
cache contents; entered as a fallback entry it still costs one
`fallback_triggers` increment before the loop moves on. -/
theorem unregistered_frame {α : Type} (sched : Scheduler α)
    (st : ExecState α) (now : Nat) (name : String) (params : Params)
    (primary : String) (full rest : List String)
    (h : sched.registry.lookup name = none) :
    execute_skill sched st now name params =
      (⟨false, none, some ("Skill " ++ name ++ " not registered"),
        false, 0⟩, st) ∧
    fallbackLoop sched now params primary full st (name :: rest) =
      fallbackLoop sched now params primary full (bumpFT st) rest ∧
    (bumpFT st).stats.fallback_triggers = st.stats.fallback_triggers + 1 := by
  have h1 : ∀ st' : ExecState α, execute_skill sched st' now name params =
      (⟨false, none, some ("Skill " ++ name ++ " not registered"),
        false, 0⟩, st') := by
    intro st'
    unfold execute_skill
    rw [h]
  refine ⟨h1 st, ?_, rfl⟩
  conv_lhs => rw [fallbackLoop]
  rw [h1 (bumpFT st)]
  simp

/-- C10 witness: with an empty registry the attempt on "X" is the
not-registered failure with the state unchanged. -/
theorem unregistered_frame_witness :
    execute_skill (⟨[]⟩ : Scheduler Nat) ⟨[], ⟨0, 0, 0, 0⟩⟩ 0 "X" [] =
      (⟨false, none, some ("Skill " ++ "X" ++ " not registered"),
        false, 0⟩, ⟨[], ⟨0, 0, 0, 0⟩⟩) :=
  (unregistered_frame (⟨[]⟩ : Scheduler Nat) ⟨[], ⟨0, 0, 0, 0⟩⟩ 0 "X" []
    "P" [] [] rfl).1

end StockMCP
